import Mathlib

/-!
Verification development for the 13F extraction engine of `src/core/runner_acsn.py`
(project "mario-project").

The Python source is shallowly embedded: document texts are `List Char`, the
resilient fetcher is a pure function of an attempt oracle, the four extraction
strategies are executable Lean functions translated line by line from the
source, and Python exceptions show up as `Except`/`Option` failure values.
Python floats produced by `float(...)` are modelled as rationals (`ℚ`); every
string that the claims' code paths feed into `float` is an integer-looking
string, so no rounding behaviour is observable in any property proved here.
-/

namespace Mario

/-! ## Basic character and string helpers (Python semantics, ASCII fragment) -/

/-- Model of Python's `str.isspace` / regex `\s` on the ASCII characters that
occur in filings (space, tab, CR, LF). -/
def isWS (c : Char) : Bool := c.isWhitespace

/-- Characters matched by the regex class `[\w:]` (`\w` = word character). -/
def isWordColon (c : Char) : Bool := c.isAlphanum || c = '_' || c = ':'

/-- Characters matched by the regex class `[\d,]`. -/
def isDigComma (c : Char) : Bool := c.isDigit || c = ','

/-- Length of the maximal whitespace run at the head of `s`. -/
def wsRunLen (s : List Char) : Nat := (s.takeWhile isWS).length

/-- Python `str.strip()` (whitespace strip at both ends). -/
def pyStrip (s : List Char) : List Char :=
  ((s.dropWhile isWS).reverse.dropWhile isWS).reverse

/-- Python `str.lower()` on the ASCII fragment. -/
def lowerL (s : List Char) : List Char := s.map Char.toLower

/-- Python `str.upper()` on the ASCII fragment. -/
def upperL (s : List Char) : List Char := s.map Char.toUpper

/-- Python `str.replace(",", "")`: drop every comma. -/
def stripCommas (s : List Char) : List Char := s.filter (fun c => c ≠ ',')

/-- `s.take n = pat` as a Bool: does `s` start with `pat`? -/
def startsWithL (pat s : List Char) : Bool := decide (s.take pat.length = pat)

/-- Python's substring test `pat in s`. -/
def containsSub (pat : List Char) : List Char → Bool
  | [] => pat.isEmpty
  | c :: t => startsWithL pat (c :: t) || containsSub pat t

/-- Python slice `row[a:b]` for `0 ≤ a`, with Python's clamping behaviour. -/
def pySlice (s : List Char) (a b : Nat) : List Char := (s.drop a).take (b - a)

/-- Python `str.ljust(n)`. -/
def ljust (s : List Char) (n : Nat) : List Char :=
  s ++ List.replicate (n - s.length) ' '

/-- Value of a digit string (e.g. from a regex `\d+` capture), as a natural. -/
def natOfDigits (s : List Char) : Nat :=
  s.foldl (fun a c => a * 10 + (c.toNat - 48)) 0

/-- `v or "0"`: Python's empty-string defaulting used before `float(v)`. -/
def orZero (s : List Char) : List Char := if s = [] then ['0'] else s

/-- Python `str.strip("\n")`: strip newline characters at both ends only. -/
def stripNL (s : List Char) : List Char :=
  ((s.dropWhile (· = '\n')).reverse.dropWhile (· = '\n')).reverse

/-- Helper for `splitlines`. -/
def splitlinesGo : List Char → List Char → List (List Char)
  | [], cur => [cur.reverse]
  | '\r' :: '\n' :: t, cur =>
      cur.reverse :: (if t = [] then [] else splitlinesGo t [])
  | '\r' :: t, cur => cur.reverse :: (if t = [] then [] else splitlinesGo t [])
  | '\n' :: t, cur => cur.reverse :: (if t = [] then [] else splitlinesGo t [])
  | c :: t, cur => splitlinesGo t (c :: cur)

/-- Python `str.splitlines()` (restricted to the `\n`, `\r`, `\r\n` breaks
that occur in the filings' ASCII text). -/
def splitlines (s : List Char) : List (List Char) :=
  if s = [] then [] else splitlinesGo s []

/-! ## Python `float(...)` on cleaned numeric strings

The source applies `float` to comma-stripped, whitespace-stripped strings.
Every string the claims' code paths feed into `float` is an integer string,
for which Python's `float` is exact (up to 2^53, far beyond any filing
figure), so we model the decimal-literal fragment of `float` as an exact
fraction.  Fractions are kept unnormalized — numerator and positive
denominator — so that every arithmetic step is primitive `Int`/`Nat`
arithmetic.  Inputs outside the decimal fragment (which raise `ValueError`
in Python) yield `none`. -/

/-- An exact fraction: numerator and (positive, by construction)
denominator. -/
abbrev PyQ := Int × Nat

/-- Addition of fractions (no normalization needed for the sign-of-sum and
zero tests the source performs). -/
def pyqAdd (a b : PyQ) : PyQ := (a.1 * (b.2 : Int) + b.1 * (a.2 : Int), a.2 * b.2)

/-- The Python comparison `q != 0` (exact for fractions with positive
denominators). -/
def pyqNZ (q : PyQ) : Bool := decide (q.1 ≠ 0)

/-- Parse an optional exponent suffix `([eE][+-]?digits)?` and return the
decimal shift (positive = multiply, negative = divide), or `none` on
trailing junk. -/
def parseExp : List Char → Option (Bool × Nat)
  | [] => some (false, 0)
  | c :: t =>
    if c = 'e' ∨ c = 'E' then
      let (neg, t1) : Bool × List Char :=
        match t with
        | '+' :: u => (false, u)
        | '-' :: u => (true, u)
        | u => (false, u)
      let ed := t1.takeWhile Char.isDigit
      if ed = [] ∨ t1.drop ed.length ≠ [] then none
      else some (neg, natOfDigits ed)
    else none

/-- Scale a fraction by `10 ^ e` or `10 ^ (-e)`. -/
def pyqScale (v : PyQ) : Bool × Nat → PyQ
  | (false, e) => (v.1 * ((10 : Int) ^ e), v.2)
  | (true, e) => (v.1, v.2 * 10 ^ e)

/-- Model of Python `float(v)` on stripped strings: decimal literals with
optional sign, fraction and exponent.  `none` models `ValueError`. -/
def pyFloat (s : List Char) : Option PyQ :=
  let (sgn, s1) : Int × List Char :=
    match s with
    | '+' :: t => (1, t)
    | '-' :: t => (-1, t)
    | t => (1, t)
  if s1 = [] then none
  else
    let ip := s1.takeWhile Char.isDigit
    let s2 := s1.drop ip.length
    match s2 with
    | '.' :: t =>
      let fp := t.takeWhile Char.isDigit
      if ip = [] ∧ fp = [] then none
      else
        (parseExp (t.drop fp.length)).map
          (pyqScale (sgn * ((natOfDigits ip : Int) * (10 : Int) ^ fp.length + (natOfDigits fp : Int)), 10 ^ fp.length))
    | _ =>
      if ip = [] then none
      else (parseExp s2).map (pyqScale (sgn * (natOfDigits ip : Int), 1))

/-! ## Resilient fetcher (`sec_get`, `runner_acsn.py` lines 55-77)

One HTTP attempt either yields a response with a status code or raises a
network-level fault (`requests.RequestException`).  The environment is an
attempt oracle mapping the attempt index to its outcome; sleeps and the
rotating user-agent headers do not influence the returned value and are not
modelled. -/

/-- Outcome of one `requests.get` attempt. -/
inductive Att where
  | resp (status : Nat)
  | exc
deriving DecidableEq, Repr

/-- What `sec_get` does: return the response obtained at a given attempt,
re-raise the fault of a given attempt, or fall off the loop returning the
`None` initial value of `last_response`. -/
inductive FetchRes where
  | response (attempt status : Nat)
  | raised (attempt : Nat)
  | noneReturned
deriving DecidableEq, Repr

/-- The retry loop of `sec_get`: `rem` attempts remain, the next attempt has
index `i`, and `lastR`/`lastE` carry `last_response`/`last_exception`
(attempt index and status).  Translated from lines 56-77. -/
def secGetGo (o : Nat → Att) (i : Nat) (lastR : Option (Nat × Nat))
    (lastE : Option Nat) : Nat → FetchRes
  | 0 =>
    match lastR with
    | some (a, s) => .response a s
    | none =>
      match lastE with
      | some a => .raised a
      | none => .noneReturned
  | rem + 1 =>
    match o i with
    | .resp s =>
      if s = 200 then .response i s
      else if 400 ≤ s ∧ s < 500 ∧ s ≠ 429 then .response i s
      else secGetGo o (i + 1) (some (i, s)) lastE rem
    | .exc => secGetGo o (i + 1) lastR (some i) rem

/-- `sec_get(url, max_retries)` as a function of the attempt oracle. -/
def sec_get (o : Nat → Att) (max_retries : Nat) : FetchRes :=
  secGetGo o 0 none none max_retries

/-- Statuses on which the loop returns immediately (read off lines 67-70 of
the source: exactly 200, and the 4xx range minus 429). -/
def isTerminalStatus (s : Nat) : Bool :=
  s = 200 || (400 ≤ s && s < 500 && s ≠ 429)

/-- First attempt index in the window `[i, i+rem)` whose outcome is a
response with a terminal status, with that status. -/
def firstTermFrom (o : Nat → Att) (i : Nat) : Nat → Option (Nat × Nat)
  | 0 => none
  | rem + 1 =>
    match o i with
    | .resp s => if isTerminalStatus s then some (i, s) else firstTermFrom o (i + 1) rem
    | .exc => firstTermFrom o (i + 1) rem

/-- Last attempt index in the window `[i, i+rem)` whose outcome is a
response, with its status. -/
def lastRespFrom (o : Nat → Att) (i : Nat) : Nat → Option (Nat × Nat)
  | 0 => none
  | rem + 1 =>
    match lastRespFrom o (i + 1) rem with
    | some r => some r
    | none => match o i with
      | .resp s => some (i, s)
      | .exc => none

/-- Last attempt index in the window `[i, i+rem)` whose outcome is a fault. -/
def lastExcFrom (o : Nat → Att) (i : Nat) : Nat → Option Nat
  | 0 => none
  | rem + 1 =>
    match lastExcFrom o (i + 1) rem with
    | some r => some r
    | none => match o i with
      | .resp _ => none
      | .exc => some i

/-- Declarative fetcher behaviour (the amended contract): stop at the first
terminal response; otherwise return the last-seen response; otherwise
re-raise the last fault; with zero attempts, fall through returning `None`. -/
def fetchSpec (o : Nat → Att) (n : Nat) : FetchRes :=
  match firstTermFrom o 0 n with
  | some (i, s) => .response i s
  | none =>
    match lastRespFrom o 0 n with
    | some (j, s) => .response j s
    | none =>
      match lastExcFrom o 0 n with
      | some j => .raised j
      | none => .noneReturned

/-! ## Value-multiplier detector (`check_value_multiplies`, lines 161-172) -/

/-- Does the regex `x\$(\d+)` match at offset `i` of `s`? -/
def xDollarAt (s : List Char) (i : Nat) : Bool :=
  match s.drop i with
  | 'x' :: '$' :: c :: _ => c.isDigit
  | _ => false

/-- The integer captured by a match of `x\$(\d+)` at offset `i` (the `\d+`
capture is greedy: the maximal digit run). -/
def capturedAt (s : List Char) (i : Nat) : Nat :=
  natOfDigits ((s.drop (i + 2)).takeWhile Char.isDigit)

/-- `re.search(r"x\$(\d+)", s)` + `int(match.group(1))`: scan left to right
for the first offset where the pattern matches and return its capture. -/
def findXDollar : List Char → Option Nat
  | [] => none
  | c :: t =>
    if xDollarAt (c :: t) 0 = true then some (capturedAt (c :: t) 0)
    else findXDollar t

/-- `check_value_multiplies` given the fetched response's status and body
(lines 161-172; the non-200 branch prints and returns 1). -/
def check_value_multiplies (status : Nat) (text : List Char) : Int :=
  if status = 200 then
    match findXDollar text with
    | some n => (n : Int)
    | none =>
      if containsSub ("[thousands]".toList) (lowerL text) then 1000 else 1
  else 1

/-! ## The canonical holding record

Entries are Python dicts whose five numeric-designated fields hold strings in
strategy 1 and floats in strategies 2-4; the remaining fields are strings
everywhere. -/

/-- A numeric-designated field: still a string (strategy 1), or converted by
`float(...)` (strategies 2-4). -/
inductive FVal where
  | s (v : List Char)
  | n (v : PyQ)
deriving DecidableEq, Repr

/-- The 13-field canonical holding entry. -/
structure Entry where
  name_of_issuer : List Char
  title_of_class : List Char
  cusip : List Char
  figi : List Char
  value : FVal
  shares_or_percent_amount : FVal
  shares_or_percent_type : List Char
  put_call : List Char
  investment_discretion : List Char
  other_manager : List Char
  voting_authority_sole : FVal
  voting_authority_shared : FVal
  voting_authority_none : FVal
deriving DecidableEq, Repr

/-- Numeric reading of a field: a float field is itself; a string field reads
as Python `float` would read it. -/
def fq : FVal → Option PyQ
  | .n q => some q
  | .s v => pyFloat v

/-- The three voting-authority fields, summed numerically
(`sole + shared + none`, left associated as in the source). -/
def votingSum? (e : Entry) : Option PyQ :=
  match fq e.voting_authority_sole, fq e.voting_authority_shared,
      fq e.voting_authority_none with
  | some a, some b, some c => some (pyqAdd (pyqAdd a b) c)
  | _, _, _ => none

/-- The retention invariant of the heuristic strategies:
`sole + shared + none ≠ 0`. -/
def votingNZ (e : Entry) : Bool :=
  match votingSum? e with
  | some q => pyqNZ q
  | none => false

/-- The complementary fact "the voting-authority fields sum to zero". -/
def votingZero (e : Entry) : Bool :=
  match votingSum? e with
  | some q => decide (q.1 = 0)
  | none => false

/-! ## Strategy 1: structured markup (`parser`, lines 215-253)

The source first locates the information-table fragment with
`re.search(r"(<[\w:]*informationTable[\s\S]*?</[\w:]*informationTable>)")`,
then parses it with `xml.etree.ElementTree.fromstring` and walks the tree.
`ET.ParseError` (malformed fragment) and the `AttributeError` raised by
`info.find(...).text.strip()` when the found sub-element carries no text both
propagate out of `parser` — there is no `try` in this strategy. -/

/-- If `s` starts with `<[\w:]*informationTable` (greedy `[\w:]*`), return
the length of that match. -/
def matchOpenTag (s : List Char) : Option Nat :=
  match s with
  | '<' :: rest =>
    let run := (rest.takeWhile isWordColon).length
    ((List.range (run + 1)).findSome? fun j =>
      let k := run - j
      if startsWithL ("informationTable".toList) (rest.drop k) then some (1 + k + 16)
      else none)
  | _ => none

/-- If `s` starts with `</[\w:]*informationTable>`, return the match length. -/
def matchCloseTag (s : List Char) : Option Nat :=
  match s with
  | '<' :: '/' :: rest =>
    let run := (rest.takeWhile isWordColon).length
    ((List.range (run + 1)).findSome? fun j =>
      let k := run - j
      if startsWithL ("informationTable>".toList) (rest.drop k) then some (2 + k + 17)
      else none)
  | _ => none

/-- Earliest start of a closing tag in `s`: `(offset, match length)`. -/
def findCloseFrom : List Char → Option (Nat × Nat)
  | [] => none
  | c :: t =>
    match matchCloseTag (c :: t) with
    | some m => some (0, m)
    | none => (findCloseFrom t).map (fun p => (p.1 + 1, p.2))

/-- The `re.search` of line 216: leftmost block
`<[\w:]*informationTable ... </[\w:]*informationTable>` with lazy middle. -/
def findInfoBlock : List Char → Option (List Char)
  | [] => none
  | c :: t =>
    match matchOpenTag (c :: t) with
    | some olen =>
      match findCloseFrom ((c :: t).drop olen) with
      | some (mid, clen) => some ((c :: t).take (olen + mid + clen))
      | none => findInfoBlock t
    | none => findInfoBlock t

/-- An `ElementTree` element after namespace resolution: namespace URI,
local tag name, `.text` (None when the element has no leading character
data), and child elements in document order.  Attributes other than `xmlns`
declarations play no role in the extraction and are dropped. -/
inductive XElem where
  | node (ns nm : List Char) (txt : Option (List Char)) (children : List XElem)

namespace XElem

def ns : XElem → List Char
  | node n _ _ _ => n

def nm : XElem → List Char
  | node _ m _ _ => m

def txt : XElem → Option (List Char)
  | node _ _ t _ => t

def children : XElem → List XElem
  | node _ _ _ c => c

end XElem

/-! ### `ET.fromstring`, modelled

A recursive-descent well-formedness parser for the XML fragment the filings
use: nested elements with attributes, character data, self-closing tags, and
`xmlns`/`xmlns:p` namespace declarations resolved as ElementTree resolves
them.  Mismatched or unterminated tags, text after the root element, unbound
prefixes and stray markup yield `none`, modelling `ET.ParseError`.  Comments,
CDATA, processing instructions and entity references do not occur in the
information-table fragments and are not modelled (they would also fail,
conservatively). -/

/-- Characters that end an XML name. -/
def xmlNameEnd (c : Char) : Bool :=
  isWS c || c = '>' || c = '/' || c = '=' || c = '<' || c = '"' || c = '\''

/-- Read a (possibly prefixed) raw XML name. -/
def readXName (s : List Char) : List Char × List Char :=
  let nm := s.takeWhile (fun c => ¬ xmlNameEnd c)
  (nm, s.drop nm.length)

/-- Parse the attribute list after a tag name.  Returns the attributes, the
remaining input after `>` or `/>`, and whether the tag was self-closing. -/
def parseAttrs : Nat → List Char → List (List Char × List Char) →
    Option (List (List Char × List Char) × List Char × Bool)
  | 0, _, _ => none
  | fuel + 1, s, acc =>
    let s := s.dropWhile isWS
    match s with
    | '>' :: t => some (acc.reverse, t, false)
    | '/' :: '>' :: t => some (acc.reverse, t, true)
    | [] => none
    | _ =>
      let (an, s1) := readXName s
      if an = [] then none
      else
        match s1.dropWhile isWS with
        | '=' :: s2 =>
          match s2.dropWhile isWS with
          | '"' :: s3 =>
            let v := s3.takeWhile (· ≠ '"')
            (match s3.drop v.length with
             | '"' :: s4 => parseAttrs fuel s4 ((an, v) :: acc)
             | _ => none)
          | '\'' :: s3 =>
            let v := s3.takeWhile (· ≠ '\'')
            (match s3.drop v.length with
             | '\'' :: s4 => parseAttrs fuel s4 ((an, v) :: acc)
             | _ => none)
          | _ => none
        | _ => none

/-- Fold `xmlns` declarations of one tag into the namespace environment
(prefix ↦ URI; the default namespace is keyed by `[]`). -/
def updEnv (env : List (List Char × List Char))
    (attrs : List (List Char × List Char)) : List (List Char × List Char) :=
  attrs.foldl
    (fun e a =>
      if a.1 = ("xmlns".toList) then ([], a.2) :: e
      else if startsWithL ("xmlns:".toList) a.1 then (a.1.drop 6, a.2) :: e
      else e)
    env

/-- Resolve a raw tag name against the environment, as ElementTree does:
`p:local` becomes `{uri(p)}local` (unbound prefix: parse error), an
unprefixed name takes the default namespace. -/
def resolveName (env : List (List Char × List Char)) (raw : List Char) :
    Option (List Char × List Char) :=
  let pre := raw.takeWhile (· ≠ ':')
  if pre.length = raw.length then
    some (((env.find? (fun p => p.1 = ([] : List Char))).map Prod.snd).getD [], raw)
  else
    match env.find? (fun p => p.1 = pre) with
    | some p => some (p.2, raw.drop (pre.length + 1))
    | none => none

mutual

/-- Parse one element starting at `<`. Returns it and the remaining input. -/
def parseElem : Nat → List (List Char × List Char) → List Char →
    Option (XElem × List Char)
  | 0, _, _ => none
  | fuel + 1, env, s =>
    match s with
    | '<' :: t =>
      let (raw, t1) := readXName t
      if raw = [] then none
      else
        match parseAttrs (fuel + 1) t1 [] with
        | none => none
        | some (attrs, t2, selfClose) =>
          let env' := updEnv env attrs
          match resolveName env' raw with
          | none => none
          | some (nsu, loc) =>
            if selfClose then some (.node nsu loc none [], t2)
            else
              let txt0 := t2.takeWhile (· ≠ '<')
              let text := if txt0 = [] then none else some txt0
              match parseKids fuel env' (t2.drop txt0.length) raw with
              | none => none
              | some (kids, rest) => some (.node nsu loc text kids, rest)
    | _ => none

/-- Parse the children of an open element until its matching close tag
(whose raw name must equal `openRaw`); character data between children
(tails) is consumed and dropped. -/
def parseKids : Nat → List (List Char × List Char) → List Char → List Char →
    Option (List XElem × List Char)
  | 0, _, _, _ => none
  | fuel + 1, env, s, openRaw =>
    match s with
    | '<' :: '/' :: t =>
      let (cn, t1) := readXName t
      (match t1.dropWhile isWS with
       | '>' :: t2 => if cn = openRaw then some ([], t2) else none
       | _ => none)
    | '<' :: _ =>
      match parseElem fuel env s with
      | none => none
      | some (el, rest) =>
        let tail := rest.takeWhile (· ≠ '<')
        (match parseKids fuel env (rest.drop tail.length) openRaw with
         | none => none
         | some (kids, rest') => some (el :: kids, rest'))
    | _ => none

end

/-- `ET.fromstring`: parse a complete document; trailing content after the
root element other than whitespace is a parse error. -/
def xmlParse (s : List Char) : Option XElem :=
  match parseElem (2 * s.length + 4) [] s with
  | none => none
  | some (root, rest) => if rest.dropWhile isWS = [] then some root else none

/-! ### Tree walk of `parser` (lines 222-253) -/

/-- `element.find(tag, ns)` restricted to direct children, as used with the
single-step paths of the source: first child with the given namespace and
local name. -/
def findChild (e : XElem) (nsu nm : List Char) : Option XElem :=
  e.children.find? (fun c => decide (c.ns = nsu) && decide (c.nm = nm))

/-- `element.find("a/b", ns)`: first grandchild reached by an `a` child then
a `b` child, scanning `a` children in document order. -/
def findPath (e : XElem) (nsu nm1 nm2 : List Char) : Option XElem :=
  (e.children.filter (fun c => decide (c.ns = nsu) && decide (c.nm = nm1))).findSome?
    (fun c => findChild c nsu nm2)

/-- `element.findtext(tag, default, ns)` on a one-step path: the text of the
first matching child (empty when the child has no text), else the default. -/
def findText (e : XElem) (nsu nm dflt : List Char) : List Char :=
  match findChild e nsu nm with
  | none => dflt
  | some c => c.txt.getD []

/-- `element.findtext("a/b", default, ns)`. -/
def findTextPath (e : XElem) (nsu nm1 nm2 dflt : List Char) : List Char :=
  match findPath e nsu nm1 nm2 with
  | none => dflt
  | some c => c.txt.getD []

/-- `info.find(path).text.strip() if info.find(path) is not None else ""`:
raises `AttributeError` (modelled as `none`) when the element is found but
has no text. -/
def findTextStrict (e : XElem) (nsu nm1 nm2 : List Char) : Option (List Char) :=
  match findPath e nsu nm1 nm2 with
  | none => some []
  | some c =>
    match c.txt with
    | none => none
    | some t => some (pyStrip t)

/-- Extraction of one `infoTable` child element (lines 235-252).  `none`
models the uncaught `AttributeError` of the two strict sub-element reads. -/
def extractOne (nsu : List Char) (info : XElem) : Option Entry :=
  match findTextStrict info nsu ("shrsOrPrnAmt".toList) ("sshPrnamt".toList),
      findTextStrict info nsu ("shrsOrPrnAmt".toList) ("sshPrnamtType".toList) with
  | none, _ => none
  | _, none => none
  | some sa, some st =>
    some
    { name_of_issuer := pyStrip (findText info nsu ("nameOfIssuer".toList) [])
      title_of_class := pyStrip (findText info nsu ("titleOfClass".toList) [])
      cusip := pyStrip (findText info nsu ("cusip".toList) [])
      figi := pyStrip (findText info nsu ("figi".toList) [])
      value := .s (stripCommas (pyStrip (findText info nsu ("value".toList) [])))
      shares_or_percent_amount := .s (stripCommas sa)
      shares_or_percent_type := st
      put_call := pyStrip (findText info nsu ("putCall".toList) [])
      investment_discretion := pyStrip (findText info nsu ("investmentDiscretion".toList) [])
      other_manager := pyStrip (findText info nsu ("otherManager".toList) [])
      voting_authority_sole :=
        .s (stripCommas (pyStrip (findTextPath info nsu ("votingAuthority".toList) ("Sole".toList) ("0".toList))))
      voting_authority_shared :=
        .s (stripCommas (pyStrip (findTextPath info nsu ("votingAuthority".toList) ("Shared".toList) ("0".toList))))
      voting_authority_none :=
        .s (stripCommas (pyStrip (findTextPath info nsu ("votingAuthority".toList) ("None".toList) ("0".toList)))) }

/-- The `infoTable` children the `findall` of line 234 walks. -/
def infoChildren (root : XElem) : List XElem :=
  root.children.filter
    (fun c => decide (c.ns = root.ns) && decide (c.nm = ("infoTable".toList)))

/-- Effectful map over a list: the Python `for` loop that appends one result
per element and lets the first exception propagate. -/
def omapM (f : α → Option β) : List α → Option (List β)
  | [] => some []
  | a :: t =>
    match f a, omapM f t with
    | some b, some bs => some (b :: bs)
    | _, _ => none

/-- The tree walk of `parser`: one entry per `infoTable` child, in order;
`none` when any child raises. -/
def extractInfoTable (root : XElem) : Option (List Entry) :=
  omapM (extractOne root.ns) (infoChildren root)

/-- Strategy 1 (`parser`, lines 215-253).  `Except` distinguishes the two
uncaught exception sources (`ET.ParseError` and `AttributeError`) from a
normal — possibly empty — record list. -/
inductive PErr where
  | xmlError
  | attrError
  | valueError
deriving DecidableEq, Repr

instance {ε α : Type _} [DecidableEq ε] [DecidableEq α] : DecidableEq (Except ε α) :=
  fun x y =>
  match x, y with
  | .ok a, .ok b =>
    match decEq a b with
    | isTrue h => isTrue (h ▸ rfl)
    | isFalse h => isFalse fun hc => h (Except.ok.inj hc)
  | .error a, .error b =>
    match decEq a b with
    | isTrue h => isTrue (h ▸ rfl)
    | isFalse h => isFalse fun hc => h (Except.error.inj hc)
  | .ok _, .error _ => isFalse fun hc => Except.noConfusion hc
  | .error _, .ok _ => isFalse fun hc => Except.noConfusion hc

def parser (req_text : List Char) : Except PErr (List Entry) :=
  match findInfoBlock req_text with
  | none => .ok []
  | some block =>
    match xmlParse block with
    | none => .error .xmlError
    | some root =>
      match extractInfoTable root with
      | none => .error .attrError
      | some entries => .ok entries

/-! ## Table-block discovery shared by strategies 2-4

`re.findall(r"<table>(.*?)</table>", req_text, flags=re.S | re.I)`:
case-insensitive literal delimiters, lazy body, non-overlapping scan. -/

/-- Case-insensitive `startsWith`. -/
def startsWithCI (pat s : List Char) : Bool := startsWithL (lowerL pat) (lowerL (s.take pat.length))

/-- Earliest offset of a case-insensitive occurrence of `pat` in `s`. -/
def findCI (pat : List Char) : List Char → Option Nat
  | [] => if pat = [] then some 0 else none
  | c :: t => if startsWithCI pat (c :: t) then some 0 else (findCI pat t).map (· + 1)

/-- Fuel-driven worker for `findTables`. -/
def findTablesGo : Nat → List Char → List (List Char)
  | 0, _ => []
  | _, [] => []
  | fuel + 1, c :: t =>
    if startsWithCI ("<table>".toList) (c :: t) then
      match findCI ("</table>".toList) ((c :: t).drop 7) with
      | some m => ((c :: t).drop 7).take m :: findTablesGo fuel ((c :: t).drop (7 + m + 8))
      | none => findTablesGo fuel t
    else findTablesGo fuel t

/-- All lazily-delimited `<table> ... </table>` bodies, in order. -/
def findTables (s : List Char) : List (List Char) := findTablesGo (s.length + 1) s

/-- "issuer" in table_str.lower() (strategies 2 and 3, lines 262/323). -/
def hasIssuer (tbl : List Char) : Bool := containsSub ("issuer".toList) (lowerL tbl)

/-- Header detection (lines 265-269/326-330): index of the first line whose
stripped, lowered text contains `<c>`. -/
def findHeaderIdx (lines : List (List Char)) : Option Nat :=
  lines.findIdx? (fun l => containsSub ("<c>".toList) (lowerL (pyStrip l)))

/-- `max(len(line) for line in data_lines)`. -/
def maxLenOf (lines : List (List Char)) : Nat :=
  lines.foldl (fun m l => max m l.length) 0

/-- The 30% noise filter (lines 276-278/335-337): keep a line when
`len(line.strip()) >= max_len * 0.3`.  The float threshold is modelled
exactly as the rational `3/10 · max_len`; no property proved here depends on
the float rounding of `0.3`. -/
def keepLine (maxLen : Nat) (l : List Char) : Bool :=
  10 * (pyStrip l).length ≥ 3 * maxLen

/-! ## Strategy 2: positional fixed-width parser (`parser2`, lines 255-314) -/

/-- The 12 assignable column names of `entry_list` (lines 280-285) are
positions 0-11; writing position `i ≥ 12` raises `IndexError`, swallowed by
the per-column `except` — the entry is unchanged. -/
def entryListSet (e : Entry) (i : Nat) (v : List Char) : Entry :=
  match i with
  | 0 => { e with name_of_issuer := v }
  | 1 => { e with title_of_class := v }
  | 2 => { e with cusip := v }
  | 3 => { e with value := .s v }
  | 4 => { e with shares_or_percent_amount := .s v }
  | 5 => { e with shares_or_percent_type := v }
  | 6 => { e with put_call := v }
  | 7 => { e with investment_discretion := v }
  | 8 => { e with other_manager := v }
  | 9 => { e with voting_authority_sole := .s v }
  | 10 => { e with voting_authority_shared := .s v }
  | 11 => { e with voting_authority_none := .s v }
  | _ => e

/-- The per-row defaults of line 289 plus `figi` of line 290. -/
def p2Default : Entry :=
  { name_of_issuer := []
    title_of_class := []
    cusip := []
    figi := []
    value := .s ("0".toList)
    shares_or_percent_amount := .s ("0".toList)
    shares_or_percent_type := []
    put_call := []
    investment_discretion := []
    other_manager := []
    voting_authority_sole := .s ("0".toList)
    voting_authority_shared := .s ("0".toList)
    voting_authority_none := .s ("0".toList) }

/-- `while left > 0 and not row[left - 1].isspace(): left -= 1`
(lines 296-297).  Only called with `left < row.length`, so the reads are in
bounds. -/
def backUp (row : List Char) : Nat → Nat
  | 0 => 0
  | l + 1 => if (((row.get? l).getD ' ').isWhitespace) then l + 1 else backUp row l

/-- `while right > left and not row[right].isspace(): right -= 1`
(lines 300-301).  `none` models the `IndexError` raised when the probed
index is out of range. -/
def walkRight (row : List Char) (left : Nat) : Nat → Option Nat
  | 0 => some 0
  | r + 1 =>
    if r + 1 ≤ left then some (r + 1)
    else
      match row.get? (r + 1) with
      | none => none
      | some c => if c.isWhitespace then some (r + 1) else walkRight row left r

/-- One column read (lines 292-303): returns the stripped substring, or
`none` when the body raised and the `except: pass` left the field alone. -/
def p2Col (row : List Char) (start : Nat) (inext : Option Nat) : Option (List Char) :=
  let leftO : Option Nat :=
    if start > 0 then
      match row.get? start with
      | none => none
      | some c => some (if c.isWhitespace then start else backUp row start)
    else some 0
  match leftO with
  | none => none
  | some left =>
    match inext with
    | none => some (pyStrip (pySlice row left row.length))
    | some nx =>
      match walkRight row left nx with
      | none => none
      | some right => some (pyStrip (pySlice row left right))

/-- Pair each column start with the next column start (if any). -/
def withNext (l : List Nat) : List (Nat × Option Nat) :=
  l.zip ((l.drop 1).map some ++ [none])

/-- All fields of one data row before numeric conversion (lines 286-305). -/
def p2Fields (colPos : List Nat) (row0 : List Char) : Entry :=
  let row := row0 ++ ("     ".toList)
  ((withNext colPos).foldl
    (fun (p : Entry × Nat) c =>
      match p2Col row c.1 c.2 with
      | none => (p.1, p.2 + 1)
      | some v => (entryListSet p.1 p.2 v, p.2 + 1))
    (p2Default, 0)).1

/-- String of an `FVal` as the conversion loop reads it back
(`entry.get(k, "0")`): strategy-2 fields are still strings here. -/
def fvalStr : FVal → List Char
  | .s v => v
  | .n _ => []

/-- `float(entry.get(k, "0").replace(",", "").strip() or "0")` on a field. -/
def convFV (f : FVal) : Option PyQ :=
  pyFloat (orZero (pyStrip (stripCommas (fvalStr f))))

/-- Numeric conversion of the five designated fields plus the retention
filter (lines 306-310).  `Except.error` models the uncaught `ValueError` of
`float(v)`, which aborts `parser2` wholesale via the outer `except`. -/
def p2Convert (e : Entry) : Except Unit (Option Entry) :=
  match convFV e.value, convFV e.shares_or_percent_amount,
      convFV e.voting_authority_sole, convFV e.voting_authority_shared,
      convFV e.voting_authority_none with
  | some v, some sa, some so, some sh, some no =>
    .ok
      (if pyqNZ (pyqAdd (pyqAdd so sh) no) then
        some { e with
          value := .n v
          shares_or_percent_amount := .n sa
          voting_authority_sole := .n so
          voting_authority_shared := .n sh
          voting_authority_none := .n no }
      else none)
  | _, _, _, _, _ => .error ()

/-- The row loop of one table (lines 286-310): empty rows are skipped; a
conversion failure ends the run, keeping earlier rows (`false` = aborted). -/
def p2Rows (colPos : List Nat) : List (List Char) → List Entry × Bool
  | [] => ([], true)
  | row :: rest =>
    if pyStrip row = [] then p2Rows colPos rest
    else
      match p2Convert (p2Fields colPos row) with
      | .error _ => ([], false)
      | .ok none => p2Rows colPos rest
      | .ok (some e) => (e :: (p2Rows colPos rest).1, (p2Rows colPos rest).2)

/-- One table of strategy 2 (lines 262-310): locate the header, slice the
data lines, apply the noise filter and padding, then read the rows.
`(entries, false)` records that a `ValueError`/`ValueError("No header...")`
escaped to the outer `except`, aborting the remaining tables. -/
def parser2Table (tbl : List Char) : List Entry × Bool :=
  let lines := splitlines (stripNL tbl)
  match findHeaderIdx lines with
  | none => ([], false)
  | some hi =>
    let tableLines := lines.drop hi
    let headerLine := tableLines.headD []
    let colPos := (List.range headerLine.length).filter
      (fun i => headerLine.get? i = some '<')
    let dataLines := tableLines.drop 1
    match dataLines with
    | [] => ([], false)
    | _ =>
      let maxLen := maxLenOf dataLines
      let padded := (dataLines.filter (keepLine maxLen)).map (fun l => ljust l maxLen)
      p2Rows colPos padded

/-- The table loop of `parser2`: accumulate over "issuer" tables; an aborted
table ends the loop, and the records gathered so far are returned (outer
`try`/`except: pass` of lines 257-312). -/
def parser2Go : List (List Char) → List Entry
  | [] => []
  | tbl :: rest =>
    if hasIssuer tbl then
      match parser2Table tbl with
      | (es, true) => es ++ parser2Go rest
      | (es, false) => es
    else parser2Go rest

/-- Strategy 2 (`parser2`, lines 255-314). -/
def parser2 (req_text : List Char) : List Entry :=
  match findTables req_text with
  | [] => []
  | ts => parser2Go ts

/-! ## Strategy 3: token-based fixed-width parser (`parser3`, lines 316-415)

`parse_line` matches
`^\s*(?P<name>.+?)\s{2,}(?P<title>.+?)\s{2,}(?P<cusip>\S+)\s*(?P<rest>.*)$`.
We reproduce Python's backtracking order exactly: the leading `\s*` is
greedy (tried longest first), the lazy groups are tried shortest first, the
`\s{2,}` separators longest first; after the `\S+` cusip the remainder of
the pattern always matches, so cusip is the maximal non-space run and
`rest` is what follows the next whitespace run. -/

/-- Try one title length: succeeds when a `\s{2,}` separator followed by a
non-space cusip starts right after the title.  Returns (title, cusip, rest). -/
def m1TryTitle (s3 : List Char) (tLen : Nat) :
    Option (List Char × List Char × List Char) :=
  let s4 := s3.drop tLen
  let g2 := wsRunLen s4
  if 2 ≤ g2 ∧ g2 < s4.length then
    let s5 := s4.drop g2
    let cusip := s5.takeWhile (fun c => ¬ isWS c)
    let s6 := s5.drop cusip.length
    some (s3.take tLen, cusip, s6.drop (wsRunLen s6))
  else none

/-- Backtrack the first `\s{2,}` separator (longest first) and the lazy
title (shortest first), after a candidate name. -/
def m1AfterName (s2 : List Char) : Option (List Char × List Char × List Char) :=
  let g1max := wsRunLen s2
  if g1max < 2 then none
  else
    (List.range (g1max - 1)).findSome? fun k =>
      let s3 := s2.drop (g1max - k)
      (List.range s3.length).findSome? fun t => m1TryTitle s3 (t + 1)

/-- Try lazy name lengths (shortest first) on the suffix after the leading
`\s*`. -/
def m1FromW (sw : List Char) : Option (List Char × List Char × List Char × List Char) :=
  (List.range sw.length).findSome? fun nl =>
    (m1AfterName (sw.drop (nl + 1))).map
      (fun r => (sw.take (nl + 1), r.1, r.2.1, r.2.2))

/-- The full match of the line regex: (name, title, cusip, rest) groups, or
`none` when `re.match` fails (the `ValueError` of line 352). -/
def m1Match (ln : List Char) : Option (List Char × List Char × List Char × List Char) :=
  let lead := wsRunLen ln
  (List.range (lead + 1)).findSome? fun k => m1FromW (ln.drop (lead - k))

/-- `_strip_wrapping_quotes` (lines 340-346). -/
def stripWrappingQuotes (line : List Char) : List Char :=
  let ln := pyStrip line
  if startsWithL ("\"".toList) ln ∧ 2 ≤ ln.length ∧ ln.drop (ln.length - 2) = ("\",".toList) then
    (ln.drop 1).take (ln.length - 3) |> (fun s => s.reverse.dropWhile isWS |>.reverse)
  else if startsWithL ("\"".toList) ln ∧ ln.drop (ln.length - 1) = ("\"".toList) then
    (ln.drop 1).take (ln.length - 2)
  else ln

/-- `re.match(r"^\s*([\d,]+)?\s*([\d,]+)?\s*(.*)$", rest)` (line 357): the
two optional greedy numeric groups and the tail. -/
def m2split (rest : List Char) : List Char × List Char × List Char :=
  let s1 := rest.dropWhile isWS
  let g1 := s1.takeWhile isDigComma
  let s2 := (s1.drop g1.length).dropWhile isWS
  let g2 := s2.takeWhile isDigComma
  let s3 := (s2.drop g2.length).dropWhile isWS
  (pyStrip g1, pyStrip g2, s3)

/-- `re.findall(r"[\d,]+", tail)` (line 361): maximal digit/comma runs. -/
def numTokensGo : List Char → List Char → List (List Char)
  | [], cur => if cur = [] then [] else [cur.reverse]
  | c :: t, cur =>
    if isDigComma c then numTokensGo t (c :: cur)
    else if cur = [] then numTokensGo t []
    else cur.reverse :: numTokensGo t []

def numTokens (tail : List Char) : List (List Char) := numTokensGo tail []

/-- Does `s` match `(\s+[\d,]+){n}\s*` entirely?  (The suffix pattern of the
`re.sub` on line 363.) -/
def tailSuffixMatch : List Char → Nat → Bool
  | s, 0 => s.all isWS
  | s, n + 1 =>
    let w := s.takeWhile isWS
    if w = [] then false
    else
      let s1 := s.drop w.length
      let d := s1.takeWhile isDigComma
      if d = [] then false else tailSuffixMatch (s1.drop d.length) n

/-- `re.sub(r"(?:\s+[\d,]+){n}\s*$", "", tail)` (line 363): remove the
leftmost suffix match, if any. -/
def subTrailing (tail : List Char) (n : Nat) : List Char :=
  match (List.range (tail.length + 1)).findSome?
      (fun p => if tailSuffixMatch (tail.drop p) n then some p else none) with
  | some p => tail.take p
  | none => tail

/-- Python `str.split()`: whitespace-run split, no empty tokens. -/
def splitWS (s : List Char) : List (List Char) := numTokensWS s
where
  /-- worker reusing the run-splitting scheme of `numTokensGo`. -/
  numTokensWS (s : List Char) : List (List Char) := goWS s []
  goWS : List Char → List Char → List (List Char)
    | [], cur => if cur = [] then [] else [cur.reverse]
    | c :: t, cur =>
      if ¬ isWS c then goWS t (c :: cur)
      else if cur = [] then goWS t []
      else cur.reverse :: goWS t []

/-- The keyword scan over the residual text tokens (lines 368-378). -/
def kwFold (toks : List (List Char)) : List Char × List Char × List Char :=
  toks.foldl
    (fun (st : List Char × List Char × List Char) t =>
      let (ty, pc, disc) := st
      let up := upperL t
      if ty = [] ∧ (up = ("SH".toList) ∨ up = ("PRN".toList) ∨ up = ("SHARES".toList) ∨ up = ("PRF".toList)) then
        (t, pc, disc)
      else if pc = [] ∧ (up = ("PUT".toList) ∨ up = ("CALL".toList) ∨ up = ("P".toList) ∨ up = ("C".toList)) then
        (ty, t, disc)
      else (ty, pc, if disc = [] then t else disc ++ ' ' :: t))
    ([], [], [])

/-- The raw (all-string) result of `parse_line` (lines 348-398). -/
structure PLRes where
  name : List Char
  title : List Char
  cusip : List Char
  value : List Char
  sharesAmt : List Char
  ty : List Char
  putCall : List Char
  disc : List Char
  other : List Char
  sole : List Char
  shared : List Char
  vnone : List Char
deriving DecidableEq, Repr

/-- `parse_line` (lines 348-398): `none` models the `ValueError` of an
unmatched line, caught per-line by the loop of lines 400-412. -/
def parse_line (line : List Char) : Option PLRes :=
  let ln := stripWrappingQuotes line
  match m1Match ln with
  | none => none
  | some (nm, ti, cu, rest) =>
    let m2 := m2split rest
    let tail := m2.2.2
    let toks := numTokens tail
    let textPart := pyStrip (if toks = [] then tail else subTrailing tail toks.length)
    let kw := kwFold (splitWS textPart)
    let r := toks.reverse
    some
      { name := pyStrip nm
        title := pyStrip ti
        cusip := pyStrip cu
        value := m2.1
        sharesAmt := m2.2.1
        ty := kw.1
        putCall := kw.2.1
        disc := kw.2.2
        other := (r.get? 3).getD []
        sole := (r.get? 2).getD []
        shared := (r.get? 1).getD []
        vnone := (r.get? 0).getD [] }

/-- `float(entry.get(k, "0").replace(",", "").strip() or "0")` on a raw
string field. -/
def convS (s : List Char) : Option PyQ :=
  pyFloat (orZero (pyStrip (stripCommas s)))

/-- The per-line step of `parser3` (lines 400-412): parse, discard "total"
rows, convert the numeric fields, apply the retention filter.  All failures
are caught by the inner `except`, skipping the line (`none`). -/
def p3Line (line : List Char) : Option Entry :=
  match parse_line line with
  | none => none
  | some pe =>
    if lowerL pe.name = ("total".toList) then none
    else
      match convS pe.value, convS pe.sharesAmt, convS pe.sole, convS pe.shared,
          convS pe.vnone with
      | some v, some sa, some so, some sh, some no =>
        if pyqNZ (pyqAdd (pyqAdd so sh) no) then
          some
            { name_of_issuer := pe.name
              title_of_class := pe.title
              cusip := pe.cusip
              figi := []
              value := .n v
              shares_or_percent_amount := .n sa
              shares_or_percent_type := pe.ty
              put_call := pe.putCall
              investment_discretion := pe.disc
              other_manager := pe.other
              voting_authority_sole := .n so
              voting_authority_shared := .n sh
              voting_authority_none := .n no }
        else none
      | _, _, _, _, _ => none

/-- One table of strategy 3 (lines 322-412).  As in strategy 2, a missing
header or an empty data-line list raises before any row is appended
(`(_, false)` aborts the table loop). -/
def parser3Table (tbl : List Char) : List Entry × Bool :=
  let lines := splitlines (stripNL tbl)
  match findHeaderIdx lines with
  | none => ([], false)
  | some hi =>
    let dataLines := (lines.drop hi).drop 1
    match dataLines with
    | [] => ([], false)
    | _ =>
      let maxLen := maxLenOf dataLines
      let padded := (dataLines.filter (keepLine maxLen)).map (fun l => ljust l maxLen)
      (padded.filterMap p3Line, true)

/-- The table loop of `parser3` (outer `try` of lines 318-414). -/
def parser3Go : List (List Char) → List Entry
  | [] => []
  | tbl :: rest =>
    if hasIssuer tbl then
      match parser3Table tbl with
      | (es, true) => es ++ parser3Go rest
      | (es, false) => es
    else parser3Go rest

/-- Strategy 3 (`parser3`, lines 316-415). -/
def parser3 (req_text : List Char) : List Entry :=
  match findTables req_text with
  | [] => []
  | ts => parser3Go ts

/-! ## Strategy 4: external extraction fallback (`parser_llm`, lines 417-441)

The external capability (`llm_parser.get_records`, an LLM call) is modelled
as an oracle from a text fragment to a list of raw 13-field string records;
the per-fragment `try`/`except` of lines 424-435 already converts any
failure of the capability into "no entries", so the oracle is total.  The
numeric clean-up loop of lines 437-440 runs outside any `try`: a
`float(...)` failure there propagates (`Except.error`). -/

/-- A raw record as returned by the external capability. -/
structure RawRec where
  name_of_issuer : List Char
  title_of_class : List Char
  cusip : List Char
  figi : List Char
  value : List Char
  shares_or_percent_amount : List Char
  shares_or_percent_type : List Char
  put_call : List Char
  investment_discretion : List Char
  other_manager : List Char
  voting_authority_sole : List Char
  voting_authority_shared : List Char
  voting_authority_none : List Char
deriving DecidableEq, Repr

/-- The external capability: fragment text ↦ extracted raw records. -/
def Oracle := List Char → List RawRec

/-- The numeric clean-up of lines 437-440 applied to one raw record. -/
def llmConvert (r : RawRec) : Option Entry := do
  let v ← convS r.value
  let sa ← convS r.shares_or_percent_amount
  let so ← convS r.voting_authority_sole
  let sh ← convS r.voting_authority_shared
  let no ← convS r.voting_authority_none
  pure
    { name_of_issuer := r.name_of_issuer
      title_of_class := r.title_of_class
      cusip := r.cusip
      figi := r.figi
      value := .n v
      shares_or_percent_amount := .n sa
      shares_or_percent_type := r.shares_or_percent_type
      put_call := r.put_call
      investment_discretion := r.investment_discretion
      other_manager := r.other_manager
      voting_authority_sole := .n so
      voting_authority_shared := .n sh
      voting_authority_none := .n no }

/-- "issuer" or "cusip" keyword test of lines 422/429. -/
def hasIssuerOrCusip (s : List Char) : Bool :=
  containsSub ("issuer".toList) (lowerL s) || containsSub ("cusip".toList) (lowerL s)

/-- Strategy 4 (`parser_llm`, lines 417-441). -/
def parser_llm (oracle : Oracle) (req_text : List Char) : Except Unit (List Entry) :=
  let raw : List RawRec :=
    match findTables req_text with
    | [] => if hasIssuerOrCusip req_text then oracle req_text else []
    | ts => (ts.filter hasIssuerOrCusip).flatMap oracle
  match omapM llmConvert raw with
  | some es => .ok es
  | none => .error ()

/-! ## The cascade (`getParser`, lines 197-213) -/

/-- `getParser`: the three deterministic strategies are all evaluated (a
strategy-1 exception propagates before anything is compared); the first
non-empty record list wins and its 1-based index is stamped as provenance;
only when all three are empty is the fallback invoked, with provenance 4. -/
def getParser (oracle : Oracle) (req_text : List Char) :
    Except PErr (Nat × List Entry) :=
  match parser req_text with
  | .error e => .error e
  | .ok r1 =>
    if r1 ≠ [] then .ok (1, r1)
    else
      let r2 := parser2 req_text
      if r2 ≠ [] then .ok (2, r2)
      else
        let r3 := parser3 req_text
        if r3 ≠ [] then .ok (3, r3)
        else
          match parser_llm oracle req_text with
          | .error _ => .error .valueError
          | .ok r4 => .ok (4, r4)

/-! ## Normalization/persistence row handling (`save_data`, lines 105-107)

`df = pd.DataFrame(records, columns=..., dtype=str)` keeps one row per
entry; `df.replace("", np.nan)` then `df.dropna(subset=["name_of_issuer"])`
drop exactly the rows whose issuer name is the empty string.  Only the row
multiset is modelled; the later dtype coercion and upload live outside the
extraction core. -/

/-- The rows of the DataFrame right after lines 105-107. -/
def save_data_rows (entries : List Entry) : List Entry :=
  entries.filter (fun e => e.name_of_issuer ≠ [])

/-! ## Derived observations used to state the claims -/

/-- A numeric-designated field carries no thousands separator. -/
def fvNoComma : FVal → Bool
  | .s v => v.all (fun c => c ≠ ',')
  | .n _ => true

/-- All five numeric-designated fields of an entry are comma-free. -/
def commaFreeEntry (e : Entry) : Bool :=
  fvNoComma e.value && fvNoComma e.shares_or_percent_amount
    && fvNoComma e.voting_authority_sole && fvNoComma e.voting_authority_shared
    && fvNoComma e.voting_authority_none

/-- A record element is safe for the two strict sub-element reads of
strategy 1: each present `shrsOrPrnAmt` sub-element carries text. -/
def strictOk (nsu : List Char) (c : XElem) : Bool :=
  (findTextStrict c nsu ("shrsOrPrnAmt".toList) ("sshPrnamt".toList)).isSome
    && (findTextStrict c nsu ("shrsOrPrnAmt".toList) ("sshPrnamtType".toList)).isSome

/-- Placeholder element used only as a `getD` default in statements that
index into child lists (never reached under the stated bounds). -/
def xdef : XElem := .node [] [] none []

/-! ## Concrete documents and records used to exercise the theorems -/

/-- A minimal well-formed information-table document: strategy 1 succeeds
with one entry (whose voting-authority fields default to "0"). -/
def docXml1 : List Char :=
  ("<informationTable><infoTable><nameOfIssuer>A</nameOfIssuer></infoTable></informationTable>").toList

/-- The entry strategy 1 extracts from `docXml1`. -/
def entryXml1 : Entry :=
  { name_of_issuer := ['A']
    title_of_class := []
    cusip := []
    figi := []
    value := .s []
    shares_or_percent_amount := .s []
    shares_or_percent_type := []
    put_call := []
    investment_discretion := []
    other_manager := []
    voting_authority_sole := .s ['0']
    voting_authority_shared := .s ['0']
    voting_authority_none := .s ['0'] }

/-- A legacy fixed-width table with a 12-column header: strategy 2 succeeds
(voting authority 3/4/5). -/
def docTbl2 : List Char :=
  ("<table>issuer\n<C> <C> <C> <C> <C> <C> <C> <C> <C> <C> <C> <C>\na   b   c   1   2   t   p   i   o   3   4   5\n</table>").toList

/-- A one-marker table: strategy 2 keeps only the all-zero defaults (and so
filters the row out), while strategy 3's token heuristic extracts a row. -/
def docTbl3 : List Char :=
  ("<table>issuer\n<C>\nAAA  BBB  CCC  1  2  3\n</table>").toList

/-- A degenerate table with no header line: all deterministic strategies
yield zero entries and the cascade falls through to the external service. -/
def docTbl4 : List Char := ("<table>issuer</table>").toList

/-- An information-table block that is not well-formed markup: strategy 1
raises `ET.ParseError` out of the cascade. -/
def docBadXml : List Char := ("<informationTable><foo</informationTable>").toList

/-- A well-formed block whose `sshPrnamt` sub-element is present but empty:
`info.find(...).text.strip()` raises `AttributeError`. -/
def docEmptyAmt : List Char :=
  ("<informationTable><infoTable><shrsOrPrnAmt><sshPrnamt></sshPrnamt></shrsOrPrnAmt></infoTable></informationTable>").toList

/-- A two-record tree, the second record omitting every optional element
(the spec's strategy-1 example). -/
def exRoot2 : XElem :=
  .node [] ("informationTable".toList) none
    [ .node [] ("infoTable".toList) none
        [ .node [] ("nameOfIssuer".toList) (some ("Alpha Corp".toList)) []
          , .node [] ("votingAuthority".toList) none
              [ .node [] ("Sole".toList) (some ("1,000".toList)) []
                , .node [] ("Shared".toList) (some ("2".toList)) []
                , .node [] ("None".toList) (some ("3".toList)) [] ] ]
      , .node [] ("infoTable".toList) none [] ]

/-- An external-capability record whose numeric fields are all "0". -/
def rawRec0 : RawRec :=
  { name_of_issuer := ("Ext Co".toList)
    title_of_class := []
    cusip := []
    figi := []
    value := ['0']
    shares_or_percent_amount := ['0']
    shares_or_percent_type := []
    put_call := []
    investment_discretion := []
    other_manager := []
    voting_authority_sole := ['0']
    voting_authority_shared := ['0']
    voting_authority_none := ['0'] }

/-- `rawRec0` after the numeric clean-up of lines 437-440. -/
def entryLlm0 : Entry :=
  { name_of_issuer := ("Ext Co".toList)
    title_of_class := []
    cusip := []
    figi := []
    value := .n (0, 1)
    shares_or_percent_amount := .n (0, 1)
    shares_or_percent_type := []
    put_call := []
    investment_discretion := []
    other_manager := []
    voting_authority_sole := .n (0, 1)
    voting_authority_shared := .n (0, 1)
    voting_authority_none := .n (0, 1) }

/-- The silent external capability: always returns no records. -/
def oracle0 : Oracle := fun _ => []

/-- An external capability returning one record for every fragment. -/
def oracleB : Oracle := fun _ => [rawRec0]

/-- An attempt oracle answering 201 then 404. -/
def o201 : Nat → Att := fun i => if i = 0 then .resp 201 else .resp 404

/-- An entry whose issuer name is empty (as strategy 1 produces for a
record with a missing or empty `nameOfIssuer`). -/
def entryNoName : Entry :=
  { entryXml1 with name_of_issuer := [] }

/-! ## General lemmas -/

theorem xDollarAt_cons (c : Char) (t : List Char) (j : Nat) :
    xDollarAt (c :: t) (j + 1) = xDollarAt t j := rfl

theorem capturedAt_cons (c : Char) (t : List Char) (j : Nat) :
    capturedAt (c :: t) (j + 1) = capturedAt t j := rfl

theorem xDollarAt_oob (s : List Char) (i : Nat) (h : s.length ≤ i) :
    xDollarAt s i = false := by
  unfold xDollarAt
  rw [List.drop_eq_nil_of_le h]

/-- `findXDollar` returns the capture of the leftmost match. -/
theorem findXDollar_first :
    ∀ (s : List Char) (i : Nat), xDollarAt s i = true →
      (∀ j, j < i → xDollarAt s j = false) →
      findXDollar s = some (capturedAt s i) := by
  intro s
  induction s with
  | nil => intro i h _; rw [xDollarAt_oob [] i (by simp)] at h; cases h
  | cons c t ih =>
    intro i h hmin
    cases i with
    | zero => simp [findXDollar, h]
    | succ j =>
      have h0 : xDollarAt (c :: t) 0 = false := hmin 0 (Nat.succ_pos j)
      rw [xDollarAt_cons] at h
      rw [capturedAt_cons]
      simp only [findXDollar, h0]
      exact ih j h (fun j' hj' => by
        have := hmin (j' + 1) (Nat.succ_lt_succ hj')
        rwa [xDollarAt_cons] at this)

/-- `findXDollar` finds nothing when no offset matches. -/
theorem findXDollar_none :
    ∀ s : List Char, (∀ j, xDollarAt s j = false) → findXDollar s = none := by
  intro s
  induction s with
  | nil => intro _; rfl
  | cons c t ih =>
    intro h
    simp only [findXDollar, h 0]
    exact ih (fun j => by have := h (j + 1); rwa [xDollarAt_cons] at this)

/-! ## Claim theorems -/

/-- C10: invoking `sec_get` with `max_retries = 0` never runs the attempt
loop; the function falls through and returns the `None` initial value of
`last_response` — neither a response nor a raised fault. -/
theorem C10_zero_retries : ∀ o : Nat → Att, sec_get o 0 = FetchRes.noneReturned :=
  fun _ => rfl

/-- C3: on a successfully fetched body, the multiplier is the integer
captured at the first occurrence of `x$<digits>`; otherwise 1000 when the
text contains `[thousands]` case-insensitively; otherwise 1.  The first
conjunct carries no assumption about `[thousands]`, so the `x$` rule takes
precedence when both markers occur. -/
theorem C3_multiplier :
    (∀ (text : List Char) (i : Nat), xDollarAt text i = true →
      (∀ j, j < i → xDollarAt text j = false) →
      check_value_multiplies 200 text = (capturedAt text i : Int))
    ∧ (∀ text : List Char, (∀ j, j < text.length → xDollarAt text j = false) →
      containsSub ("[thousands]".toList) (lowerL text) = true →
      check_value_multiplies 200 text = 1000)
    ∧ (∀ text : List Char, (∀ j, j < text.length → xDollarAt text j = false) →
      containsSub ("[thousands]".toList) (lowerL text) = false →
      check_value_multiplies 200 text = 1) := by
  refine ⟨?_, ?_, ?_⟩
  · intro text i h hmin
    unfold check_value_multiplies
    rw [findXDollar_first text i h hmin]
    simp
  · intro text h hth
    have hnone : findXDollar text = none := by
      refine findXDollar_none text (fun j => ?_)
      by_cases hj : j < text.length
      · exact h j hj
      · exact xDollarAt_oob text j (Nat.le_of_not_lt hj)
    unfold check_value_multiplies
    rw [hnone, hth]
    simp
  · intro text h hth
    have hnone : findXDollar text = none := by
      refine findXDollar_none text (fun j => ?_)
      by_cases hj : j < text.length
      · exact h j hj
      · exact xDollarAt_oob text j (Nat.le_of_not_lt hj)
    unfold check_value_multiplies
    rw [hnone, hth]
    simp

/-- Concrete instantiation of `C3_multiplier`: an `x$` marker (even next to
a `[thousands]` marker), a `[thousands]`-only body, and a marker-free body. -/
theorem C3_multiplier_witness :
    check_value_multiplies 200 ("ax$25b [thousands]".toList) = 25
    ∧ check_value_multiplies 200 ("values in [Thousands]".toList) = 1000
    ∧ check_value_multiplies 200 ("no markers here".toList) = 1 := by
  refine ⟨?_, ?_, ?_⟩
  · have h := C3_multiplier.1 ("ax$25b [thousands]".toList) 1 (by decide)
      (fun j hj => by
        have hj0 : j = 0 := by omega
        subst hj0; decide)
    rw [h]; decide
  · exact C3_multiplier.2.1 ("values in [Thousands]".toList)
      (fun j hj => by
        have : j < 21 := by simpa using hj
        interval_cases j <;> decide)
      (by decide)
  · exact C3_multiplier.2.2 ("no markers here".toList)
      (fun j hj => by
        have : j < 15 := by simpa using hj
        interval_cases j <;> decide)
      (by decide)

/-! ## Fetcher characterization (for C4) -/

/-- The retry loop, related to the declarative window searches: stop at the
first terminal response in the remaining window; otherwise the last
response seen (in the window or carried in), else the last fault, else fall
through. -/
theorem secGetGo_spec (o : Nat → Att) :
    ∀ (rem i : Nat) (lastR : Option (Nat × Nat)) (lastE : Option Nat),
    secGetGo o i lastR lastE rem =
      match firstTermFrom o i rem with
      | some (j, s) => .response j s
      | none =>
        match (lastRespFrom o i rem).or lastR with
        | some (j, s) => .response j s
        | none =>
          match (lastExcFrom o i rem).or lastE with
          | some j => .raised j
          | none => .noneReturned := by
  intro rem
  induction rem with
  | zero =>
    intro i lastR lastE
    cases lastR with
    | some r => rfl
    | none =>
      cases lastE with
      | some a => rfl
      | none => rfl
  | succ rem ih =>
    intro i lastR lastE
    cases ha : o i with
    | exc =>
      simp only [secGetGo, firstTermFrom, lastRespFrom, lastExcFrom, ha]
      rw [ih (i + 1) lastR (some i)]
      cases firstTermFrom o (i + 1) rem with
      | some r => rfl
      | none =>
        cases hlr : lastRespFrom o (i + 1) rem with
        | some r => simp [Option.or]
        | none =>
          cases lastR with
          | some r => simp [Option.or]
          | none =>
            cases lastExcFrom o (i + 1) rem with
            | some r => simp [Option.or]
            | none => simp [Option.or]
    | resp s =>
      by_cases h200 : s = 200
      · subst h200
        simp [secGetGo, firstTermFrom, ha, isTerminalStatus]
      · by_cases h4xx : 400 ≤ s ∧ s < 500 ∧ s ≠ 429
        · have ht : isTerminalStatus s = true := by
            simp only [isTerminalStatus]
            simp [h4xx.1, h4xx.2.1, h4xx.2.2]
          simp [secGetGo, firstTermFrom, ha, ht, h200, h4xx]
        · have ht : isTerminalStatus s = false := by
            simp only [isTerminalStatus]
            push_neg at h4xx
            by_cases h1 : 400 ≤ s
            · by_cases h2 : s < 500
              · simp [h200, h1, h2, h4xx h1 h2]
              · simp [h200, h2]
            · simp [h200, h1]
          simp only [secGetGo, firstTermFrom, lastRespFrom, lastExcFrom, ha,
            if_neg h200, if_neg h4xx, ht, if_false]
          rw [ih (i + 1) (some (i, s)) lastE]
          cases firstTermFrom o (i + 1) rem with
          | some r => rfl
          | none =>
            cases hlr : lastRespFrom o (i + 1) rem with
            | some r => simp [Option.or]
            | none =>
              cases lastExcFrom o (i + 1) rem with
              | some r => simp [Option.or]
              | none => simp [Option.or]

/-- C4 counterexample: the claim says any HTTP 2xx response returns
immediately, but a 201 at attempt 0 is not terminal for the code — the loop
retries and the 404 of attempt 1 is what is returned. -/
theorem C4_counterexample :
    o201 0 = Att.resp 201
    ∧ sec_get o201 2 = FetchRes.response 1 404
    ∧ sec_get o201 2 ≠ FetchRes.response 0 201 := by
  refine ⟨rfl, by decide, by decide⟩

/-- C4 (amended): the fetcher returns immediately exactly on HTTP 200 and on
4xx other than 429; every other outcome — 429, 5xx, network faults, and also
2xx other than 200 and 3xx — is retried; on exhaustion it returns the
last-seen response if any attempt produced one, otherwise it raises the last
network fault (and with a zero budget it falls through).  `fetchSpec` is the
declarative statement of this contract and `sec_get` equals it. -/
theorem C4_fetch_amended :
    (∀ (o : Nat → Att) (n : Nat), sec_get o n = fetchSpec o n)
    ∧ isTerminalStatus 200 = true
    ∧ isTerminalStatus 404 = true
    ∧ isTerminalStatus 403 = true
    ∧ isTerminalStatus 429 = false
    ∧ isTerminalStatus 201 = false
    ∧ isTerminalStatus 301 = false
    ∧ isTerminalStatus 500 = false
    ∧ isTerminalStatus 503 = false := by
  refine ⟨fun o n => ?_, by decide, by decide, by decide, by decide, by decide,
    by decide, by decide, by decide⟩
  have h := secGetGo_spec o n 0 none none
  unfold sec_get fetchSpec
  rw [h]
  cases firstTermFrom o 0 n with
  | some r => rfl
  | none =>
    cases lastRespFrom o 0 n with
    | some r => rfl
    | none =>
      cases lastExcFrom o 0 n with
      | some r => rfl
      | none => rfl

/-! ## Retention-filter lemmas (for C2) -/

/-- Any entry admitted by the conversion-and-filter step of strategy 2
satisfies the voting-authority invariant. -/
theorem p2Convert_votingNZ (e e' : Entry) (h : p2Convert e = .ok (some e')) :
    votingNZ e' = true := by
  unfold p2Convert at h
  split at h
  · rename_i v sa so sh no hv hsa hso hsh hno
    split at h
    · rename_i hnz
      injection h with h
      injection h with h
      subst h
      simp [votingNZ, votingSum?, fq, hnz]
    · exact absurd h (by simp)
  · exact absurd h (by simp)

/-- Any entry admitted by the per-line step of strategy 3 satisfies the
voting-authority invariant. -/
theorem p3Line_votingNZ (line : List Char) (e : Entry) (h : p3Line line = some e) :
    votingNZ e = true := by
  unfold p3Line at h
  split at h
  · exact absurd h (by simp)
  · split at h
    · exact absurd h (by simp)
    · split at h
      · rename_i v sa so sh no hv hsa hso hsh hno
        split at h
        · rename_i hnz
          injection h with h
          subst h
          simp [votingNZ, votingSum?, fq, hnz]
        · exact absurd h (by simp)
      · exact absurd h (by simp)

theorem p2Rows_all (colPos : List Nat) :
    ∀ rows : List (List Char), ((p2Rows colPos rows).1).all votingNZ = true := by
  intro rows
  induction rows with
  | nil => rfl
  | cons row rest ih =>
    unfold p2Rows
    split
    · exact ih
    · split
      · rfl
      · exact ih
      · rename_i e h
        simp only [List.all_cons, ih, Bool.and_true]
        exact p2Convert_votingNZ _ e h

theorem parser2Table_all (tbl : List Char) :
    ((parser2Table tbl).1).all votingNZ = true := by
  unfold parser2Table
  dsimp only
  split
  · rfl
  · split
    · rfl
    · exact p2Rows_all _ _

theorem parser2Go_all :
    ∀ ts : List (List Char), (parser2Go ts).all votingNZ = true := by
  intro ts
  induction ts with
  | nil => rfl
  | cons tbl rest ih =>
    unfold parser2Go
    split
    · split
      · rename_i es h
        have h1 : es = (parser2Table tbl).1 := by rw [h]
        rw [List.all_append, h1, parser2Table_all tbl, ih]
        rfl
      · rename_i es h
        have h1 : es = (parser2Table tbl).1 := by rw [h]
        rw [h1]; exact parser2Table_all tbl
    · exact ih

theorem parser3Table_all (tbl : List Char) :
    ((parser3Table tbl).1).all votingNZ = true := by
  unfold parser3Table
  dsimp only
  split
  · rfl
  · split
    · rfl
    · rw [List.all_eq_true]
      intro e he
      rcases List.mem_filterMap.mp he with ⟨line, _, hline⟩
      exact p3Line_votingNZ line e hline

theorem parser3Go_all :
    ∀ ts : List (List Char), (parser3Go ts).all votingNZ = true := by
  intro ts
  induction ts with
  | nil => rfl
  | cons tbl rest ih =>
    unfold parser3Go
    split
    · split
      · rename_i es h
        have h1 : es = (parser3Table tbl).1 := by rw [h]
        rw [List.all_append, h1, parser3Table_all tbl, ih]
        rfl
      · rename_i es h
        have h1 : es = (parser3Table tbl).1 := by rw [h]
        rw [h1]; exact parser3Table_all tbl
    · exact ih

/-- C2: every entry strategy 2 or strategy 3 returns satisfies
`sole + shared + none ≠ 0`; strategies 1 and 4 apply no such filter — on
concrete inputs they return entries whose voting-authority fields sum to 0. -/
theorem C2_voting_filter :
    (∀ t : List Char, (parser2 t).all votingNZ = true)
    ∧ (∀ t : List Char, (parser3 t).all votingNZ = true)
    ∧ (parser docXml1 = .ok [entryXml1] ∧ votingZero entryXml1 = true)
    ∧ (parser_llm oracleB docTbl4 = .ok [entryLlm0] ∧ votingZero entryLlm0 = true) := by
  refine ⟨fun t => ?_, fun t => ?_, ⟨?_, by decide⟩, ⟨?_, by decide⟩⟩
  · unfold parser2
    split
    · rfl
    · exact parser2Go_all _
  · unfold parser3
    split
    · rfl
    · exact parser3Go_all _
  · decide
  · decide

/-- C5: on every line `parse_line` accepts, the numeric tokens of the tail
left after the value and share-amount groups are assigned from the end of
the line in the fixed order none ← last, shared ← second-to-last,
sole ← third-to-last, other-manager ← fourth-to-last (each defaulting to ""
when missing, and tokens before the last four landing in none of the four
fields); and every parsed line whose issuer name lowercases to "total" is
discarded outright by the row loop. -/
theorem C5_token_assignment :
    (∀ (ln nm ti cu rest : List Char),
      m1Match (stripWrappingQuotes ln) = some (nm, ti, cu, rest) →
      ∀ pe, parse_line ln = some pe →
        pe.vnone = (((numTokens (m2split rest).2.2).reverse.get? 0).getD [])
        ∧ pe.shared = (((numTokens (m2split rest).2.2).reverse.get? 1).getD [])
        ∧ pe.sole = (((numTokens (m2split rest).2.2).reverse.get? 2).getD [])
        ∧ pe.other = (((numTokens (m2split rest).2.2).reverse.get? 3).getD []))
    ∧ (∀ (line : List Char) (pe : PLRes), parse_line line = some pe →
        lowerL pe.name = ("total".toList) → p3Line line = none) := by
  constructor
  · intro ln nm ti cu rest hm pe hpe
    unfold parse_line at hpe
    dsimp only at hpe
    rw [hm] at hpe
    injection hpe with h
    subst h
    exact ⟨rfl, rfl, rfl, rfl⟩
  · intro line pe hp hname
    unfold p3Line
    rw [hp]
    dsimp only
    rw [if_pos hname]

/-- Concrete instantiation of `C5_token_assignment`: a line with four
trailing numeric tokens, and a "total" line that the row loop drops. -/
theorem C5_token_assignment_witness :
    (∃ pe, parse_line ("aa  bb  cc  1  2  3  4  5  6".toList) = some pe
      ∧ pe.vnone = ['6'] ∧ pe.shared = ['5'] ∧ pe.sole = ['4'] ∧ pe.other = ['3'])
    ∧ p3Line ("total  t  c  1  2  3".toList) = none := by
  constructor
  · have h := C5_token_assignment.1 ("aa  bb  cc  1  2  3  4  5  6".toList)
      ("aa".toList) ("bb".toList) ("cc".toList) ("1  2  3  4  5  6".toList)
      (by decide)
      ⟨("aa".toList), ("bb".toList), ("cc".toList), ['1'], ['2'], [], [],
        ("3 4 5 6".toList), ['3'], ['4'], ['5'], ['6']⟩
      (by decide)
    refine ⟨⟨("aa".toList), ("bb".toList), ("cc".toList), ['1'], ['2'], [], [],
        ("3 4 5 6".toList), ['3'], ['4'], ['5'], ['6']⟩,
      by decide, by rw [h.1]; decide, by rw [h.2.1]; decide,
      by rw [h.2.2.1]; decide, by rw [h.2.2.2]; decide⟩
  · exact C5_token_assignment.2 ("total  t  c  1  2  3".toList)
      ⟨("total".toList), ['t'], ['c'], ['1'], ['2'], [], [], ['3'], [], [], [], ['3']⟩
      (by decide) (by decide)

/-- C1: the cascade tries the strategies in order 1, 2, 3, 4 against the
same text; the returned record set is the first non-empty one, the
provenance stamp is that strategy's number, and the external fallback is
consulted exactly when strategies 1-3 all yield zero entries. -/
theorem C1_cascade_priority :
    (∀ (o : Oracle) (t : List Char) (r1 : List Entry),
      parser t = .ok r1 → r1 ≠ [] → getParser o t = .ok (1, r1))
    ∧ (∀ (o : Oracle) (t : List Char),
      parser t = .ok [] → parser2 t ≠ [] → getParser o t = .ok (2, parser2 t))
    ∧ (∀ (o : Oracle) (t : List Char),
      parser t = .ok [] → parser2 t = [] → parser3 t ≠ [] →
        getParser o t = .ok (3, parser3 t))
    ∧ (∀ (o : Oracle) (t : List Char),
      parser t = .ok [] → parser2 t = [] → parser3 t = [] →
        getParser o t =
          match parser_llm o t with
          | .ok r4 => .ok (4, r4)
          | .error _ => .error .valueError)
    ∧ (∀ (o : Oracle) (t : List Char) (p : Nat) (r : List Entry),
      getParser o t = .ok (p, r) →
        (p = 1 ∨ p = 2 ∨ p = 3 ∨ p = 4)
        ∧ (p = 4 ↔ (parser t = .ok [] ∧ parser2 t = [] ∧ parser3 t = []))) := by
  refine ⟨?_, ?_, ?_, ?_, ?_⟩
  · intro o t r1 h1 hne
    unfold getParser
    rw [h1]
    dsimp only
    rw [if_pos hne]
  · intro o t h1 h2
    unfold getParser
    rw [h1]
    dsimp only
    rw [if_neg (by simp), if_pos h2]
  · intro o t h1 h2 h3
    unfold getParser
    rw [h1]
    dsimp only
    rw [if_neg (by simp), h2, if_neg (by simp), if_pos h3]
  · intro o t h1 h2 h3
    unfold getParser
    rw [h1]
    dsimp only
    rw [if_neg (by simp), h2, if_neg (by simp), h3, if_neg (by simp)]
    cases parser_llm o t with
    | ok r4 => rfl
    | error e => rfl
  · intro o t p r h
    unfold getParser at h
    cases hp1 : parser t with
    | error e => rw [hp1] at h; cases h
    | ok r1 =>
      rw [hp1] at h
      dsimp only at h
      by_cases hne : r1 ≠ []
      · rw [if_pos hne] at h
        injection h with h
        injection h with hpp hrr
        subst hpp
        constructor
        · exact Or.inl rfl
        · constructor
          · intro hc; exact absurd hc (by decide)
          · rintro ⟨ha, -, -⟩
            exact absurd (Except.ok.inj ha) hne
      · rw [if_neg hne] at h
        push_neg at hne
        subst hne
        by_cases h2 : parser2 t ≠ []
        · rw [if_pos h2] at h
          injection h with h
          injection h with hpp hrr
          subst hpp
          refine ⟨Or.inr (Or.inl rfl), ?_, ?_⟩
          · intro hc; exact absurd hc (by decide)
          · rintro ⟨-, hb, -⟩
            exact absurd hb h2
        · rw [if_neg h2] at h
          push_neg at h2
          by_cases h3 : parser3 t ≠ []
          · rw [if_pos h3] at h
            injection h with h
            injection h with hpp hrr
            subst hpp
            refine ⟨Or.inr (Or.inr (Or.inl rfl)), ?_, ?_⟩
            · intro hc; exact absurd hc (by decide)
            · rintro ⟨-, -, hc⟩
              exact absurd hc h3
          · rw [if_neg h3] at h
            push_neg at h3
            cases hll : parser_llm o t with
            | error e => rw [hll] at h; cases h
            | ok r4 =>
              rw [hll] at h
              injection h with h
              injection h with hpp hrr
              subst hpp
              exact ⟨Or.inr (Or.inr (Or.inr rfl)), by simp [hp1, h2, h3]⟩

set_option maxRecDepth 4000 in
/-- Concrete instantiation of `C1_cascade_priority` on four documents, one
per provenance class. -/
theorem C1_cascade_priority_witness :
    getParser oracle0 docXml1 = .ok (1, [entryXml1])
    ∧ getParser oracle0 docTbl2 = .ok (2, parser2 docTbl2)
    ∧ getParser oracle0 docTbl3 = .ok (3, parser3 docTbl3)
    ∧ getParser oracle0 docTbl4 = .ok (4, []) := by
  refine ⟨?_, ?_, ?_, ?_⟩
  · exact C1_cascade_priority.1 oracle0 docXml1 [entryXml1] (by decide) (by decide)
  · exact C1_cascade_priority.2.1 oracle0 docTbl2 (by decide) (by decide)
  · exact C1_cascade_priority.2.2.1 oracle0 docTbl3 (by decide) (by decide) (by decide)
  · have h := C1_cascade_priority.2.2.2.1 oracle0 docTbl4 (by decide) (by decide) (by decide)
    rw [h]
    decide

/-! ## `omapM` lemmas (for C6) -/

theorem omapM_length {α β : Type _} (f : α → Option β) :
    ∀ (l : List α) (es : List β), omapM f l = some es → es.length = l.length := by
  intro l
  induction l with
  | nil => intro es h; injection h with h; subst h; rfl
  | cons a t ih =>
    intro es h
    unfold omapM at h
    cases ha : f a with
    | none => rw [ha] at h; cases h
    | some b =>
      rw [ha] at h
      cases ht : omapM f t with
      | none => rw [ht] at h; cases h
      | some bs =>
        rw [ht] at h
        injection h with h
        subst h
        simp [ih bs ht]

theorem omapM_get {α β : Type _} (f : α → Option β) :
    ∀ (l : List α) (es : List β), omapM f l = some es →
      ∀ (i : Nat) (hl : i < l.length) (he : i < es.length),
        f (l.get ⟨i, hl⟩) = some (es.get ⟨i, he⟩) := by
  intro l
  induction l with
  | nil => intro es h i hl; exact absurd hl (by simp)
  | cons a t ih =>
    intro es h i hl he
    unfold omapM at h
    cases ha : f a with
    | none => rw [ha] at h; cases h
    | some b =>
      rw [ha] at h
      cases ht : omapM f t with
      | none => rw [ht] at h; cases h
      | some bs =>
        rw [ht] at h
        injection h with h
        subst h
        cases i with
        | zero => simpa using ha
        | succ j =>
          exact ih bs ht j (Nat.lt_of_succ_lt_succ hl) (Nat.lt_of_succ_lt_succ he)

theorem omapM_total {α β : Type _} (f : α → Option β) :
    ∀ l : List α, (∀ a ∈ l, (f a).isSome = true) → ∃ es, omapM f l = some es := by
  intro l
  induction l with
  | nil => intro _; exact ⟨[], rfl⟩
  | cons a t ih =>
    intro h
    obtain ⟨bs, hbs⟩ := ih (fun x hx => h x (List.mem_cons_of_mem a hx))
    have ha := h a (List.mem_cons_self a t)
    cases hfa : f a with
    | none => rw [hfa] at ha; cases ha
    | some b => exact ⟨b :: bs, by unfold omapM; rw [hfa, hbs]⟩

theorem stripCommas_all (s : List Char) :
    (stripCommas s).all (fun c => c ≠ ',') = true := by
  rw [List.all_eq_true]
  intro c hc
  exact (List.mem_filter.mp hc).2

/-- The field facts of one successfully extracted record: the three
voting-authority sub-elements default to "0" when absent, and all five
numeric-designated fields are comma-free. -/
theorem extractOne_facts (nsu : List Char) (info : XElem) (e : Entry)
    (h : extractOne nsu info = some e) :
    (findPath info nsu ("votingAuthority".toList) ("Sole".toList) = none →
      e.voting_authority_sole = .s ['0'])
    ∧ (findPath info nsu ("votingAuthority".toList) ("Shared".toList) = none →
      e.voting_authority_shared = .s ['0'])
    ∧ (findPath info nsu ("votingAuthority".toList) ("None".toList) = none →
      e.voting_authority_none = .s ['0'])
    ∧ commaFreeEntry e = true := by
  unfold extractOne at h
  split at h
  · cases h
  · cases h
  · injection h with h
    subst h
    refine ⟨?_, ?_, ?_, ?_⟩
    · intro habs
      show FVal.s (stripCommas (pyStrip (findTextPath info nsu _ _ _))) = _
      unfold findTextPath
      rw [habs]
      decide
    · intro habs
      show FVal.s (stripCommas (pyStrip (findTextPath info nsu _ _ _))) = _
      unfold findTextPath
      rw [habs]
      decide
    · intro habs
      show FVal.s (stripCommas (pyStrip (findTextPath info nsu _ _ _))) = _
      unfold findTextPath
      rw [habs]
      decide
    · simp only [commaFreeEntry, fvNoComma, stripCommas_all, Bool.and_self]

/-- C6 counterexample: the claim promises one entry per child record with no
failure mode, but a well-formed block whose `sshPrnamt` sub-element is
present and empty makes strategy 1 raise (`AttributeError`) instead of
yielding an entry. -/
theorem C6_counterexample : parser docEmptyAmt = .error .attrError := by decide

/-- C6 (amended): whenever the tree walk of strategy 1 returns (i.e. every
present `sshPrnamt`/`sshPrnamtType` sub-element carries text — and it does
return under that condition), it yields exactly one entry per `infoTable`
child with no row filtering, each entry extracted from its child by
namespace-qualified tag name, the three voting-authority sub-elements
defaulting to "0" when absent, and all five numeric-designated fields
comma-free. -/
theorem C6_amended :
    (∀ (root : XElem) (es : List Entry), extractInfoTable root = some es →
      es.length = (infoChildren root).length
      ∧ (∀ i : Nat, i < (infoChildren root).length → i < es.length →
        extractOne root.ns (((infoChildren root).get? i).getD xdef)
            = some ((es.get? i).getD entryXml1)
        ∧ ((findPath (((infoChildren root).get? i).getD xdef) root.ns
            ("votingAuthority".toList) ("Sole".toList)).isNone = true →
            ((es.get? i).getD entryXml1).voting_authority_sole = .s ['0'])
        ∧ ((findPath (((infoChildren root).get? i).getD xdef) root.ns
            ("votingAuthority".toList) ("Shared".toList)).isNone = true →
            ((es.get? i).getD entryXml1).voting_authority_shared = .s ['0'])
        ∧ ((findPath (((infoChildren root).get? i).getD xdef) root.ns
            ("votingAuthority".toList) ("None".toList)).isNone = true →
            ((es.get? i).getD entryXml1).voting_authority_none = .s ['0'])
        ∧ commaFreeEntry ((es.get? i).getD entryXml1) = true))
    ∧ (∀ root : XElem, (infoChildren root).all (strictOk root.ns) = true →
      ∃ es, extractInfoTable root = some es) := by
  constructor
  · intro root es h
    refine ⟨omapM_length _ _ es h, ?_⟩
    intro i hc he
    have hcg : ((infoChildren root).get? i).getD xdef = (infoChildren root).get ⟨i, hc⟩ := by
      rw [List.get?_eq_get hc]
      rfl
    have heg : (es.get? i).getD entryXml1 = es.get ⟨i, he⟩ := by
      rw [List.get?_eq_get he]
      rfl
    rw [hcg, heg]
    have hg := omapM_get (extractOne root.ns) (infoChildren root) es h i hc he
    have hf := extractOne_facts root.ns ((infoChildren root).get ⟨i, hc⟩)
      (es.get ⟨i, he⟩) hg
    refine ⟨hg, ?_, ?_, ?_, hf.2.2.2⟩
    · intro habs
      exact hf.1 (Option.isNone_iff_eq_none.mp habs)
    · intro habs
      exact hf.2.1 (Option.isNone_iff_eq_none.mp habs)
    · intro habs
      exact hf.2.2.1 (Option.isNone_iff_eq_none.mp habs)
  · intro root hstrict
    refine omapM_total _ _ (fun c hcmem => ?_)
    have hs := (List.all_eq_true.mp hstrict) c hcmem
    unfold strictOk at hs
    simp only [Bool.and_eq_true] at hs
    obtain ⟨h1, h2⟩ := hs
    unfold extractOne
    cases hf1 : findTextStrict c root.ns ("shrsOrPrnAmt".toList) ("sshPrnamt".toList) with
    | none => rw [hf1] at h1; cases h1
    | some sa =>
      cases hf2 : findTextStrict c root.ns ("shrsOrPrnAmt".toList) ("sshPrnamtType".toList) with
      | none => rw [hf2] at h2; cases h2
      | some st => rfl

set_option maxRecDepth 4000 in
/-- Concrete instantiation of `C6_amended` at a two-record tree, the second
record omitting every optional element: two entries, the second one's
voting-authority fields defaulting to "0". -/
theorem C6_amended_witness :
    (∃ es, extractInfoTable exRoot2 = some es)
    ∧ ((extractInfoTable exRoot2).getD []).length = (infoChildren exRoot2).length
    ∧ ((((extractInfoTable exRoot2).getD []).get? 1).getD entryXml1).voting_authority_sole
        = FVal.s ['0'] := by
  have h2 := C6_amended.2 exRoot2 (by decide)
  have h1 := C6_amended.1 exRoot2 ((extractInfoTable exRoot2).getD []) (by decide)
  exact ⟨h2, h1.1, (h1.2 1 (by decide) (by decide)).2.1 (by decide)⟩

/-- C7 counterexample: a document whose information-table fragment is matched
by the block regex but is not well-formed markup makes strategy 1 raise
(`ET.ParseError` from `ET.fromstring`) out of the cascade instead of
returning zero entries. -/
theorem C7_counterexample : parser docBadXml = .error .xmlError := by decide

/-- C7 (amended): a strategy that does not recognize its structure in the
text yields zero entries without error — strategy 1 when no
information-table block is found, and strategies 2 and 3 when no table
block is found (their internal failures are swallowed); but strategy 1 can
still raise when a block is found and is malformed. -/
theorem C7_amended :
    ∀ t : List Char,
      (findInfoBlock t = none → parser t = .ok [])
      ∧ (findTables t = [] → parser2 t = [] ∧ parser3 t = []) := by
  intro t
  refine ⟨?_, ?_⟩
  · intro h
    unfold parser
    rw [h]
  · intro h
    constructor
    · unfold parser2
      rw [h]
    · unfold parser3
      rw [h]

/-- Concrete instantiation of `C7_amended` at an unstructured document. -/
theorem C7_amended_witness :
    parser ("hello world".toList) = .ok []
    ∧ parser2 ("hello world".toList) = []
    ∧ parser3 ("hello world".toList) = [] := by
  have h := C7_amended ("hello world".toList)
  exact ⟨h.1 (by decide), (h.2 (by decide)).1, (h.2 (by decide)).2⟩

/-- C8 counterexample: the rows handed onward by `save_data` do not include
an entry whose issuer name is empty — one input entry, zero rows kept. -/
theorem C8_counterexample :
    save_data_rows [entryNoName] = [] ∧ ([entryNoName] : List Entry).length = 1 := by
  exact ⟨by decide, rfl⟩

/-- C8 (amended): the row handling of `save_data` keeps exactly the entries
with a non-empty issuer name, preserving their order (the kept rows form a
sublist); entries lacking an issuer name are dropped before the records are
handed onward. -/
theorem C8_amended :
    ∀ es : List Entry,
      (save_data_rows es).Sublist es
      ∧ ∀ e : Entry, e ∈ save_data_rows es ↔ (e ∈ es ∧ e.name_of_issuer ≠ []) := by
  intro es
  constructor
  · exact List.filter_sublist es
  · intro e
    unfold save_data_rows
    rw [List.mem_filter]
    simp

/-- C9 counterexample: two invocations of the cascade on byte-identical
input are not byte-identical when the fallback is reached — the output then
depends on the external capability's answer, which may differ between the
two calls (modelled by the two oracles). -/
theorem C9_counterexample :
    getParser oracle0 docTbl4 ≠ getParser oracleB docTbl4 := by decide

/-- C9 (amended): whenever one of the three deterministic strategies
produces the result (provenance 1-3), the output is a function of the input
text alone — identical across invocations whatever the external capability
would have answered; only fallback output (provenance 4) additionally
depends on the external response. -/
theorem C9_amended :
    ∀ (o1 o2 : Oracle) (t : List Char) (p : Nat) (r : List Entry),
      getParser o1 t = .ok (p, r) → p ≠ 4 → getParser o2 t = .ok (p, r) := by
  intro o1 o2 t p r h hp4
  unfold getParser at h ⊢
  cases hp : parser t with
  | error e => rw [hp] at h; cases h
  | ok r1 =>
    rw [hp] at h
    dsimp only at h ⊢
    by_cases hne : r1 ≠ []
    · rwa [if_pos hne] at h ⊢
    · rw [if_neg hne] at h ⊢
      by_cases h2 : parser2 t ≠ []
      · rwa [if_pos h2] at h ⊢
      · rw [if_neg h2] at h ⊢
        by_cases h3 : parser3 t ≠ []
        · rwa [if_pos h3] at h ⊢
        · rw [if_neg h3] at h
          cases hll : parser_llm o1 t with
          | error e => rw [hll] at h; cases h
          | ok r4 =>
            rw [hll] at h
            injection h with h
            injection h with hpp hrr
            exact absurd hpp.symm hp4

set_option maxRecDepth 4000 in
/-- Concrete instantiation of `C9_amended`: a strategy-1 document's output
is unchanged when the external capability's behaviour changes. -/
theorem C9_amended_witness :
    getParser oracleB docXml1 = .ok (1, [entryXml1]) :=
  C9_amended oracle0 oracleB docXml1 1 [entryXml1] (by decide) (by decide)

end Mario
